import Mathlib

/-!
Verification of the coordinate-resolution and nearest-neighbor pipeline of
the dogfacts repository (source: src/ILoveDogs/src/components/PetMaps.jsx).

Modelling conventions:
* JavaScript numbers are modelled as exact rationals; NaN and the two
  infinities are modelled by the NumV type.  The overflow-to-infinity
  threshold of IEEE doubles is approximated by 2 to the power 1024.
* JSON values are modelled by the Val type (null, string, number, object,
  array); objects are association lists of fields.
* Asynchronous effects of the geocode function (the pacing delay, the
  network request, the localStorage cache) are made explicit: geocode is a
  pure function of the address, the cache state and the network response,
  returning the result together with flags recording whether the delay ran
  and whether a network request was issued, plus the cache state afterwards.
  The try/catch wrapper of the source makes the function total, which the
  Lean model reflects by being a total function.
* The pipeline loop of the PetMaps component is a fold over the record
  list; the calls field of the state is instrumentation counting how many
  times the geocode function was invoked.
-/

set_option exponentiation.threshold 1100
set_option maxRecDepth 8000

namespace PetMap

open List

mutual

/-- A JavaScript/JSON value, as needed by PetMaps.jsx: null, strings,
numbers (exact rationals), objects and arrays. -/
inductive Val where
  | null : Val
  | str (s : String) : Val
  | num (q : ℚ) : Val
  | obj (fields : Fields) : Val
  | arr (elems : Elems) : Val
deriving DecidableEq

/-- The fields of a JSON object: an association list of key/value pairs. -/
inductive Fields where
  | nil : Fields
  | cons (k : String) (v : Val) (rest : Fields) : Fields
deriving DecidableEq

/-- The elements of a JSON array. -/
inductive Elems where
  | nil : Elems
  | cons (v : Val) (rest : Elems) : Elems
deriving DecidableEq

end

/-- Build object fields from a list of pairs. -/
def Fields.ofList : List (String × Val) → Fields
  | [] => .nil
  | (k, v) :: rest => .cons k v (Fields.ofList rest)

/-- Build array elements from a list of values. -/
def Elems.ofList : List Val → Elems
  | [] => .nil
  | v :: rest => .cons v (Elems.ofList rest)

/-- A raw record of the data feed: a JSON object, given by its fields. -/
def Record := Fields

instance : DecidableEq Record := by unfold Record; infer_instance

/-- Lookup of a key among object fields (JSON objects have unique keys,
so the first match is the binding). -/
def Fields.get : Fields → String → Option Val
  | .nil, _ => none
  | .cons k v rest, key => if k = key then some v else rest.get key

/-- Plain member access rec[k] on the record object. -/
def getField (rec : Record) (k : String) : Option Val :=
  Fields.get rec k

/-- Member access v.k on an arbitrary value: only objects have named
fields; the named properties of strings, numbers and arrays that this code
reads are absent (undefined). -/
def getKey (v : Val) (k : String) : Option Val :=
  match v with
  | .obj fs => fs.get k
  | _ => none

/-- The JavaScript in operator, as used on values guarded by a typeof
object check: true exactly when an object has the key. -/
def hasKey (v : Val) (k : String) : Bool :=
  match v with
  | .obj fs => (fs.get k).isSome
  | _ => false

/-- typeof v results in the string object (true for objects, arrays and
null in JavaScript). -/
def isObjectType : Val → Bool
  | .obj _ => true
  | .arr _ => true
  | .null => true
  | _ => false

/-- JavaScript truthiness of a defined value (0 and the empty string are
falsy, every object and array is truthy). -/
def truthy : Val → Bool
  | .null => false
  | .str s => !(s == "")
  | .num q => !(q == 0)
  | .obj _ => true
  | .arr _ => true

/-- Truthiness of a possibly-undefined value (undefined is falsy). -/
def truthyO : Option Val → Bool
  | none => false
  | some v => truthy v

/-- The JavaScript logical-or of two possibly-undefined values: the first
when it is truthy, otherwise the second. -/
def jsOr (a b : Option Val) : Option Val :=
  if truthyO a then a else b

/-- Optional chaining x?.k: undefined and null short-circuit to undefined,
otherwise member access. -/
def optMember (o : Option Val) (k : String) : Option Val :=
  match o with
  | none => none
  | some .null => none
  | some v => getKey v k

/-- A JavaScript number value as produced by parseFloat: NaN, an infinity,
or a finite value (modelled as an exact rational). -/
inductive NumV where
  | nan : NumV
  | inf (neg : Bool) : NumV
  | fin (q : ℚ) : NumV
deriving DecidableEq

/-- Number.isFinite of a parse result. -/
def NumV.isFin : NumV → Bool
  | .fin _ => true
  | _ => false

/-- Numeric value of a list of decimal digit characters. -/
def digitsToNat (ds : List Char) : ℕ :=
  ds.foldl (fun acc c => acc * 10 + (c.toNat - '0'.toNat)) 0

/-- Approximation of the IEEE double overflow threshold.  Stated via
mkRat on a natural-number power so that kernel evaluation works. -/
def FLOAT_OVERFLOW : ℚ := mkRat ((2 ^ 1024 : ℕ) : ℤ) 1

/-- Map an exact parsed value to a double-precision outcome: values at or
beyond the overflow threshold become infinities. -/
def clampFloat (q : ℚ) : NumV :=
  if FLOAT_OVERFLOW ≤ q then .inf false
  else if q ≤ -FLOAT_OVERFLOW then .inf true
  else .fin q

/-- The exponent part of a string decimal literal, after the letter e: an
optional sign and digits.  When the digits are missing the longest valid
prefix ends before the letter e, so the exponent contributes nothing. -/
def parseExpPart (cs : List Char) : ℤ :=
  let s : Bool × List Char :=
    match cs with
    | '+' :: r => (false, r)
    | '-' :: r => (true, r)
    | _ => (false, cs)
  let ds : List Char := s.2.takeWhile (fun c => c.isDigit)
  if ds.isEmpty then 0
  else if s.1 then -(digitsToNat ds : ℤ) else (digitsToNat ds : ℤ)

/-- JavaScript parseFloat on a list of characters: skip leading
whitespace, an optional sign, then either the Infinity literal or a
decimal literal (digits, an optional fraction, an optional exponent),
taking the longest valid prefix; NaN when no prefix parses. -/
def parseFloatChars (cs0 : List Char) : NumV :=
  let cs1 : List Char := cs0.dropWhile (fun c => c.isWhitespace)
  let s : Bool × List Char :=
    match cs1 with
    | '+' :: r => (false, r)
    | '-' :: r => (true, r)
    | _ => (false, cs1)
  let neg : Bool := s.1
  let cs : List Char := s.2
  if cs.take 8 = "Infinity".toList then .inf neg
  else
    let intPart : List Char := cs.takeWhile (fun c => c.isDigit)
    let rest : List Char := cs.dropWhile (fun c => c.isDigit)
    let fr : List Char × List Char :=
      match rest with
      | '.' :: r => (r.takeWhile (fun c => c.isDigit), r.dropWhile (fun c => c.isDigit))
      | _ => ([], rest)
    let fracPart : List Char := fr.1
    if intPart.isEmpty && fracPart.isEmpty then .nan
    else
      let e : ℤ :=
        match fr.2 with
        | c :: r => if c = 'e' ∨ c = 'E' then parseExpPart r else 0
        | [] => 0
      let mantN : ℤ :=
        ((digitsToNat intPart * 10 ^ fracPart.length + digitsToNat fracPart : ℕ) : ℤ)
      let sN : ℤ := if neg then -mantN else mantN
      clampFloat (if 0 ≤ e then
          mkRat (sN * ((10 ^ e.toNat : ℕ) : ℤ)) (10 ^ fracPart.length)
        else
          mkRat sN (10 ^ fracPart.length * 10 ^ (-e).toNat))

/-- Least exponent k (bounded) with den dividing 10 to the k, when one
exists; every number arising from JSON or IEEE doubles has such a
denominator. -/
def decExp (den : ℕ) : Option ℕ :=
  (List.range 1101).find? (fun k => den ∣ 10 ^ k)

/-- Decimal rendering of a rational, as JavaScript renders finite numbers
of moderate magnitude (the exponent notation JavaScript uses for extreme
magnitudes is not modelled; it is unreachable in the claims below). -/
def ratToString (q : ℚ) : String :=
  match decExp q.den with
  | some k =>
    if k = 0 then toString q.num
    else
      let scaled : ℕ := q.num.natAbs * ((10 ^ k) / q.den)
      let ds0 := Nat.toDigits 10 scaled
      let ds := List.replicate (k + 1 - ds0.length) '0' ++ ds0
      let ip := ds.take (ds.length - k)
      let fp := ds.drop (ds.length - k)
      (if q.num < 0 then "-" else "") ++ String.mk ip ++ "." ++ String.mk fp
  | none => toString q.num ++ "/" ++ toString q.den

mutual

/-- JavaScript string conversion of a value, as triggered by template
literals and by parseFloat on non-strings. -/
def toStringJs : Val → String
  | .null => "null"
  | .str s => s
  | .num q => ratToString q
  | .obj _ => "[object Object]"
  | .arr xs => toStringElems xs

/-- String conversion of an array: elements joined with commas. -/
def toStringElems : Elems → String
  | .nil => ""
  | .cons v .nil => toStringJs v
  | .cons v rest => toStringJs v ++ "," ++ toStringElems rest

end

/-- parseFloat applied to an arbitrary value: strings are parsed directly,
a finite number converts to a string and re-parses to itself, null and
plain objects stringify to text that parses to NaN, arrays stringify to
their comma-joined elements. -/
def parseFloatVal : Val → NumV
  | .str s => parseFloatChars s.toList
  | .num q => .fin q
  | .null => .nan
  | .obj _ => .nan
  | .arr xs => parseFloatChars (toStringElems xs).toList

/-- parseFloat applied to a possibly-undefined value (undefined parses to
NaN). -/
def parseFloatO : Option Val → NumV
  | none => .nan
  | some v => parseFloatVal v

/-- The fixed priority list of embedded-coordinate fields scanned by
getCoordsFromRecord. -/
def candidates : List String := ["intake_location", "location", "found_location"]

/-- One candidate-field test of getCoordsFromRecord: a truthy object with
latitude and longitude keys whose values both parse to finite numbers
yields the parsed pair. -/
def extractCoord (v : Val) : Option (ℚ × ℚ) :=
  if truthy v && isObjectType v && hasKey v "latitude" && hasKey v "longitude" then
    match parseFloatO (getKey v "latitude"), parseFloatO (getKey v "longitude") with
    | .fin lat, .fin lng => some (lat, lng)
    | _, _ => none
  else none

/-- The loop of getCoordsFromRecord over the remaining candidate field
names: the first field whose value passes extractCoord wins. -/
def coordsFrom (rec : Record) : List String → Option (ℚ × ℚ)
  | [] => none
  | k :: ks =>
    match getField rec k with
    | some v =>
      match extractCoord v with
      | some c => some c
      | none => coordsFrom rec ks
    | none => coordsFrom rec ks

/-- getCoordsFromRecord of PetMaps.jsx: embedded-coordinate extraction
over the fixed candidate list. -/
def getCoordsFromRecord (rec : Record) : Option (ℚ × ℚ) :=
  coordsFrom rec candidates

/-- bestAddress of PetMaps.jsx: the logical-or chain over the address
sources, ending in the literal null. -/
def bestAddress (rec : Record) : Option Val :=
  jsOr (optMember (getField rec "intake_location") "human_address")
    (jsOr (optMember (getField rec "found_location") "human_address")
      (jsOr (getField rec "intake_location")
        (jsOr (getField rec "found_location")
          (jsOr (getField rec "address")
            (jsOr (getField rec "location_text") (some .null))))))

/-- The JavaScript logical-or with a literal default: x or-else d. -/
def jsOrD (a : Option Val) (d : Val) : Val :=
  match a with
  | some v => if truthy v then v else d
  | none => d

/-- The address string derived inside the pipeline loop from the chosen
address source: a string source is used directly; an object source with a
truthy address sub-field is joined from its address, city, state and zip
sub-fields via a template literal; anything else yields null. -/
def deriveAddr (v : Val) : Option String :=
  match v with
  | .str s => some s
  | _ =>
    if isObjectType v && truthyO (getKey v "address") then
      some (toStringJs ((getKey v "address").getD .null) ++ " " ++
            toStringJs (jsOrD (getKey v "city") (.str "")) ++ " " ++
            toStringJs (jsOrD (getKey v "state") (.str "")) ++ " " ++
            toStringJs (jsOrD (getKey v "zip") (.str "")))
    else none

/-- The state of the localStorage geocode cache: either unparseable
content, or a parsed key to coordinate map (a missing store is the parsed
empty map, via the literal fallback in the source). -/
inductive CacheState where
  | corrupted : CacheState
  | ok (entries : List (String × ℚ × ℚ)) : CacheState
deriving DecidableEq

/-- Lookup of an address in the parsed cache map. -/
def lookupCache (m : List (String × ℚ × ℚ)) (a : String) : Option (ℚ × ℚ) :=
  (m.find? (fun e => e.1 = a)).map (fun e => e.2)

/-- The response of one nominatim lookup: a thrown fetch or body parse
(netFail), a non-success status (notOk), or a parsed JSON array of
results, each carrying its lat and lon members.  A non-array body behaves
exactly like an empty result list in the source, so it is folded into
results with the empty list. -/
inductive NetResp where
  | netFail : NetResp
  | notOk : NetResp
  | results (rs : List (Val × Val)) : NetResp
deriving DecidableEq

/-- The observable outcome of one geocode call: the returned value, flags
recording whether the pacing delay ran and whether a network request was
issued, and the cache state afterwards. -/
structure GeoOutcome where
  result : Option (ℚ × ℚ)
  waited : Bool
  netCalled : Bool
  cacheAfter : CacheState
deriving DecidableEq

/-- The geocode function of PetMaps.jsx.  A falsy address returns null at
once.  A corrupted store makes JSON.parse throw inside the try block, so
the catch returns null before the delay and the fetch.  A cache hit
returns at once.  Otherwise the pacing delay runs, the request is issued,
and the result is parsed; only a first result whose lat and lon both parse
to finite numbers is cached and returned. -/
def geocode (address : Option String) (cache : CacheState) (net : NetResp) : GeoOutcome :=
  match address with
  | none => ⟨none, false, false, cache⟩
  | some a =>
    if a = "" then ⟨none, false, false, cache⟩
    else
      match cache with
      | .corrupted => ⟨none, false, false, .corrupted⟩
      | .ok m =>
        match lookupCache m a with
        | some c => ⟨some c, false, false, .ok m⟩
        | none =>
          match net with
          | .netFail => ⟨none, true, true, .ok m⟩
          | .notOk => ⟨none, true, true, .ok m⟩
          | .results [] => ⟨none, true, true, .ok m⟩
          | .results ((latV, lonV) :: _) =>
            match parseFloatVal latV, parseFloatVal lonV with
            | .fin lat, .fin lng => ⟨some (lat, lng), true, true, .ok (m ++ [(a, lat, lng)])⟩
            | _, _ => ⟨none, true, true, .ok m⟩

/-- A located point as pushed by the pipeline loop: the resolved
coordinate, the source record, and the display-derived fields. -/
structure PetPoint where
  lat : ℚ
  lng : ℚ
  /-- The source record reference; named rec in the source, renamed here
  because rec is reserved for recursors. -/
  srcRec : Record
  photo : Option Val
  name : Val
  species : Val
  address : Val
deriving DecidableEq

/-- The photo field of a pushed point: the first element of an array of
photo links, otherwise the raw field. -/
def photoOf (rec : Record) : Option Val :=
  match getField rec "photo_links" with
  | some (.arr .nil) => none
  | some (.arr (.cons v _)) => some v
  | o => o

/-- The name field of a pushed point. -/
def nameOf (rec : Record) : Val :=
  jsOrD (getField rec "name") (jsOrD (getField rec "animalid") (.str "Unknown"))

/-- The species field of a pushed point. -/
def speciesOf (rec : Record) : Val :=
  jsOrD (getField rec "species") (.str "PET")

/-- The address display field of a pushed point. -/
def addressOf (rec : Record) : Val :=
  match getField rec "intake_location" with
  | some (.str s) => .str s
  | _ =>
    jsOrD (optMember (getField rec "intake_location") "human_address")
      (jsOrD (getField rec "found_location") (.str ""))

/-- The point pushed for a record resolved to a coordinate. -/
def mkPoint (rec : Record) (lat lng : ℚ) : PetPoint :=
  ⟨lat, lng, rec, photoOf rec, nameOf rec, speciesOf rec, addressOf rec⟩

/-- The state threaded through the pipeline loop: the accumulated output,
the resolution-budget counter, the cache, and (as instrumentation) the
number of geocode invocations so far. -/
structure PipeState where
  out : List PetPoint
  geocoded : ℕ
  cache : CacheState
  calls : ℕ
deriving DecidableEq

/-- The resolution-budget ceiling of the pipeline loop. -/
def MAX_GEOCODE : ℕ := 150

/-- One iteration of the pipeline loop of PetMaps.jsx over a record:
embedded extraction first; otherwise, when the best address source is
truthy and the budget counter is below the ceiling, derive an address
string and, when truthy, invoke the geocoder; the budget counter
increments only when the geocode result is non-null; a resolved record
pushes one point. -/
def processRecord (net : String → NetResp) (st : PipeState) (rec : Record) : PipeState :=
  match getCoordsFromRecord rec with
  | some (lat, lng) => { st with out := st.out ++ [mkPoint rec lat lng] }
  | none =>
    match bestAddress rec with
    | some src =>
      if truthy src && decide (st.geocoded < MAX_GEOCODE) then
        match deriveAddr src with
        | some addr =>
          if addr = "" then st
          else
            -- the source binds the awaited geocode result once; the call
            -- is pure in this model, so it is written inline
            match (geocode (some addr) st.cache (net addr)).result with
            | some (lat, lng) =>
              { st with out := st.out ++ [mkPoint rec lat lng],
                        geocoded := st.geocoded + 1,
                        cache := (geocode (some addr) st.cache (net addr)).cacheAfter,
                        calls := st.calls + 1 }
            | none => { st with cache := (geocode (some addr) st.cache (net addr)).cacheAfter,
                                calls := st.calls + 1 }
        | none => st
      else st
    | none => st

/-- The pipeline run of PetMaps.jsx: a strictly sequential fold of the
loop body over the records, starting from an empty output, a zero budget
counter and the initial cache state. -/
def runPipeline (records : List Record) (cache0 : CacheState) (net : String → NetResp) : PipeState :=
  records.foldl (processRecord net) ⟨[], 0, cache0, 0⟩

/-- Degrees to radians, as in PetMaps.jsx. -/
noncomputable def toRad (d : ℝ) : ℝ := d * Real.pi / 180

/-- The haversine great-circle distance of PetMaps.jsx, Earth radius 6371
km. -/
noncomputable def haversineKm (a b : ℝ × ℝ) : ℝ :=
  let dLat := toRad (b.1 - a.1)
  let dLon := toRad (b.2 - a.2)
  let lat1 := toRad a.1
  let lat2 := toRad b.1
  let h := Real.sin (dLat / 2) ^ 2 +
    Real.cos lat1 * Real.cos lat2 * Real.sin (dLon / 2) ^ 2
  2 * 6371 * Real.arcsin (Real.sqrt h)

/-- A located point together with its computed distance from the
reference, as built by the nearest memo. -/
structure RankedPoint extends PetPoint where
  dist : ℝ

/-- The list of points decorated with their haversine distance from the
user position (the map step of the nearest memo). -/
noncomputable def withDist (u : ℚ × ℚ) (points : List PetPoint) : List RankedPoint :=
  points.map fun p =>
    { toPetPoint := p,
      dist := haversineKm ((u.1 : ℝ), (u.2 : ℝ)) ((p.lat : ℝ), (p.lng : ℝ)) }

/-- The comparison used by the sort call: the numeric comparator on the
dist field.  For a consistent numeric comparator the ECMAScript sort
(stable since ES2019) produces exactly a stable merge sort by this
relation. -/
noncomputable def distLe (a b : RankedPoint) : Bool := decide (a.dist ≤ b.dist)

/-- The nearest memo of PetMaps.jsx: empty when the user position is
absent or no points exist; otherwise the points with distances, stably
sorted ascending by distance, truncated to the first 25. -/
noncomputable def nearest (userPos : Option (ℚ × ℚ)) (points : List PetPoint) :
    List RankedPoint :=
  match userPos with
  | none => []
  | some u =>
    if points.isEmpty then []
    else ((withDist u points).mergeSort distLe).take 25

/-! ## Lemmas about the comparison used by the sort -/

theorem distLe_trans : ∀ (a b c : RankedPoint), distLe a b → distLe b c → distLe a c := by
  intro a b c hab hbc
  simp only [distLe, decide_eq_true_eq] at *
  exact le_trans hab hbc

theorem distLe_total : ∀ (a b : RankedPoint), distLe a b || distLe b a := by
  intro a b
  simp only [distLe]
  rcases le_total a.dist b.dist with h | h <;> simp [h]

theorem nearest_some_eq (u : ℚ × ℚ) (points : List PetPoint) (h : ¬ points.isEmpty) :
    nearest (some u) points = ((withDist u points).mergeSort distLe).take 25 := by
  simp [nearest, h]

/-- Claim C9: when the reference coordinate is absent the Proximity Ranker
returns the empty list, for every list of located points, and never
errors (the Lean model is a total function). -/
theorem nearest_absent_reference (points : List PetPoint) :
    nearest none points = [] := rfl

/-- Claim C4: for every reference coordinate and every list of located
points, the output of the Proximity Ranker has length at most
min 25 (length of the input), is sorted by non-decreasing distance from
the reference, and equals the take-25 truncation of the merge sort of the
distance-decorated input under the order that compares distances and
breaks ties by input position — the stable-sort characterization, so
points at equal distances keep their original input order. -/
theorem nearest_ranked_spec (u : ℚ × ℚ) (points : List PetPoint) :
    (nearest (some u) points).length ≤ min 25 points.length ∧
    (nearest (some u) points).Pairwise (fun a b => a.dist ≤ b.dist) ∧
    nearest (some u) points =
      (((withDist u points).enum.mergeSort (List.enumLE distLe)).map (fun x => x.2)).take 25 := by
  by_cases h : points.isEmpty
  · have hp : points = [] := List.isEmpty_iff.mp h
    subst hp
    refine ⟨by simp [nearest], by simp [nearest], ?_⟩
    simp [nearest, withDist]
  · rw [nearest_some_eq u points h]
    refine ⟨?_, ?_, ?_⟩
    · rw [List.length_take, List.length_mergeSort]
      simp [withDist]
    · have hs := List.sorted_mergeSort distLe_trans distLe_total (withDist u points)
      have hs' : ((withDist u points).mergeSort distLe).Pairwise
          (fun a b => a.dist ≤ b.dist) := by
        refine hs.imp ?_
        intro a b hab
        simpa [distLe] using hab
      exact hs'.sublist (List.take_sublist _ _)
    · rw [List.mergeSort_enum]

/-! ## Lemmas about the geocoder -/

theorem geocode_result_some (addr : Option String) (cache : CacheState) (net : NetResp)
    (c : ℚ × ℚ) (h : (geocode addr cache net).result = some c) :
    (∃ a m, addr = some a ∧ cache = CacheState.ok m ∧ lookupCache m a = some c) ∨
    (∃ latV lonV rs, net = NetResp.results ((latV, lonV) :: rs) ∧
      parseFloatVal latV = NumV.fin c.1 ∧ parseFloatVal lonV = NumV.fin c.2) := by
  cases addr with
  | none => simp [geocode] at h
  | some a =>
    by_cases ha : a = ""
    · simp [geocode, ha] at h
    · cases cache with
      | corrupted => simp [geocode, ha] at h
      | ok m =>
        cases hm : lookupCache m a with
        | some c' =>
          left
          refine ⟨a, m, rfl, rfl, ?_⟩
          rw [hm]
          simp [geocode, ha, hm] at h
          rw [h]
        | none =>
          right
          cases net with
          | netFail => simp [geocode, ha, hm] at h
          | notOk => simp [geocode, ha, hm] at h
          | results rs =>
            match rs with
            | [] => simp [geocode, ha, hm] at h
            | (latV, lonV) :: rest =>
              cases hlat : parseFloatVal latV with
              | fin lat =>
                cases hlon : parseFloatVal lonV with
                | fin lng =>
                  simp [geocode, ha, hm, hlat, hlon] at h
                  exact ⟨latV, lonV, rest, rfl, by rw [hlat, ← h], by rw [hlon, ← h]⟩
                | nan => simp [geocode, ha, hm, hlat, hlon] at h
                | inf b => simp [geocode, ha, hm, hlat, hlon] at h
              | nan => simp [geocode, ha, hm, hlat] at h
              | inf b => simp [geocode, ha, hm, hlat] at h

/-- Claim C6: for an address present in the (well-formed, nonempty-keyed)
Geocode Cache, resolve returns the cached coordinate with no pacing delay,
no network request and an unchanged cache.  The nonempty-address
hypothesis reflects that the system only ever caches addresses it
geocoded, which are nonempty. -/
theorem geocode_cache_hit (a : String) (m : List (String × ℚ × ℚ)) (net : NetResp)
    (c : ℚ × ℚ) (ha : a ≠ "") (h : lookupCache m a = some c) :
    geocode (some a) (CacheState.ok m) net = ⟨some c, false, false, CacheState.ok m⟩ := by
  simp [geocode, ha, h]

theorem geocode_cache_hit_witness :
    geocode (some "x") (CacheState.ok [("x", 39, -77)]) NetResp.netFail =
      ⟨some (39, -77), false, false, CacheState.ok [("x", 39, -77)]⟩ :=
  geocode_cache_hit "x" [("x", 39, -77)] NetResp.netFail (39, -77)
    (by decide) (by decide)

/-- Claim C2 counterexample: with corrupted cache content and a network
that would resolve the address, resolve returns absent with no network
request at all, while with an empty cache the very same call issues the
request and returns the coordinate — so a corrupted store is not treated
as an empty one. -/
theorem geocode_corrupted_cex :
    geocode (some "100 Main St") CacheState.corrupted
        (NetResp.results [(Val.str "39.2", Val.str "-77.3")]) =
      ⟨none, false, false, CacheState.corrupted⟩ ∧
    geocode (some "100 Main St") (CacheState.ok [])
        (NetResp.results [(Val.str "39.2", Val.str "-77.3")]) =
      ⟨some (mkRat 196 5, mkRat (-773) 10), true, true,
        CacheState.ok [("100 Main St", mkRat 196 5, mkRat (-773) 10)]⟩ := by
  constructor
  · rfl
  · decide

/-- Claim C2 (amended): a missing store is treated as the empty cache and
the lookup proceeds over the network (after the pacing delay); corrupted
or unparseable content instead makes resolve return absent immediately,
with no pacing delay and no network request; in neither case does an
error reach the caller. -/
theorem geocode_corrupted_amended :
    (∀ (a : String) (net : NetResp),
      geocode (some a) CacheState.corrupted net = ⟨none, false, false, CacheState.corrupted⟩) ∧
    (∀ (a : String) (net : NetResp), a ≠ "" →
      (geocode (some a) (CacheState.ok []) net).netCalled = true ∧
      (geocode (some a) (CacheState.ok []) net).waited = true) := by
  constructor
  · intro a net
    by_cases ha : a = "" <;> simp [geocode, ha]
  · intro a net ha
    have hm : lookupCache [] a = none := rfl
    cases net with
    | netFail => simp [geocode, ha, hm]
    | notOk => simp [geocode, ha, hm]
    | results rs =>
      match rs with
      | [] => simp [geocode, ha, hm]
      | (latV, lonV) :: rest =>
        cases hlat : parseFloatVal latV <;> cases hlon : parseFloatVal lonV <;>
          simp [geocode, ha, hm, hlat, hlon]

theorem geocode_corrupted_amended_witness :
    geocode (some "a") CacheState.corrupted NetResp.netFail =
      ⟨none, false, false, CacheState.corrupted⟩ ∧
    (geocode (some "a") (CacheState.ok []) NetResp.netFail).netCalled = true ∧
    (geocode (some "a") (CacheState.ok []) NetResp.netFail).waited = true :=
  ⟨geocode_corrupted_amended.1 "a" NetResp.netFail,
   geocode_corrupted_amended.2 "a" NetResp.netFail (by decide)⟩

/-- Claim C7: resolve never raises (the model is a total function) and
returns absent for an absent address, an empty address, a network
failure, a non-success response, an empty result set, and a first result
whose coordinate does not parse to finite numbers; a coordinate is
returned only from a cache hit or from a successful finite parse of the
first network result. -/
theorem geocode_failure_modes :
    (∀ (cache : CacheState) (net : NetResp),
      geocode none cache net = ⟨none, false, false, cache⟩) ∧
    (∀ (cache : CacheState) (net : NetResp),
      geocode (some "") cache net = ⟨none, false, false, cache⟩) ∧
    (∀ (a : String) (m : List (String × ℚ × ℚ)) (net : NetResp), a ≠ "" →
      lookupCache m a = none →
      (net = NetResp.netFail ∨ net = NetResp.notOk ∨ net = NetResp.results []) →
      (geocode (some a) (CacheState.ok m) net).result = none) ∧
    (∀ (a : String) (m : List (String × ℚ × ℚ)) (latV lonV : Val) (rs : List (Val × Val)),
      a ≠ "" → lookupCache m a = none →
      ((parseFloatVal latV).isFin = false ∨ (parseFloatVal lonV).isFin = false) →
      (geocode (some a) (CacheState.ok m) (NetResp.results ((latV, lonV) :: rs))).result
        = none) ∧
    (∀ (addr : Option String) (cache : CacheState) (net : NetResp) (c : ℚ × ℚ),
      (geocode addr cache net).result = some c →
      (∃ a m, addr = some a ∧ cache = CacheState.ok m ∧ lookupCache m a = some c) ∨
      (∃ latV lonV rs, net = NetResp.results ((latV, lonV) :: rs) ∧
        parseFloatVal latV = NumV.fin c.1 ∧ parseFloatVal lonV = NumV.fin c.2)) := by
  refine ⟨fun cache net => rfl, fun cache net => by simp [geocode], ?_, ?_, geocode_result_some⟩
  · rintro a m net ha hm (rfl | rfl | rfl) <;> simp [geocode, ha, hm]
  · intro a m latV lonV rs ha hm hfin
    cases hlat : parseFloatVal latV <;> cases hlon : parseFloatVal lonV <;>
      simp [geocode, ha, hm, hlat, hlon, NumV.isFin] at hfin ⊢

theorem geocode_failure_modes_witness :
    (geocode (some "Main") (CacheState.ok []) NetResp.netFail).result = none ∧
    (geocode (some "Main") (CacheState.ok [])
        (NetResp.results [(Val.str "abc", Val.str "1")])).result = none ∧
    ((geocode (some "q") (CacheState.ok [("q", 3, 4)]) NetResp.netFail).result = some (3, 4) →
      (∃ a m, (some "q" : Option String) = some a ∧
        (CacheState.ok [("q", 3, 4)] : CacheState) = CacheState.ok m ∧
        lookupCache m a = some (3, 4)) ∨
      (∃ latV lonV rs, (NetResp.netFail : NetResp) = NetResp.results ((latV, lonV) :: rs) ∧
        parseFloatVal latV = NumV.fin (3, (4 : ℚ)).1 ∧
        parseFloatVal lonV = NumV.fin (3, (4 : ℚ)).2)) :=
  ⟨geocode_failure_modes.2.2.1 "Main" [] NetResp.netFail (by decide) (by decide)
      (Or.inl rfl),
   geocode_failure_modes.2.2.2.1 "Main" [] (Val.str "abc") (Val.str "1") []
      (by decide) (by decide) (Or.inl (by decide)),
   geocode_failure_modes.2.2.2.2 (some "q") (CacheState.ok [("q", 3, 4)])
      NetResp.netFail (3, 4)⟩

/-! ## Lemmas about the pipeline loop -/

theorem processRecord_out_append (net : String → NetResp) (st : PipeState) (rec : Record) :
    ∃ t, (processRecord net st rec).out = st.out ++ t ∧
      t.map (fun p => p.srcRec) <+ [rec] := by
  unfold processRecord
  split
  · next lat lng heq => exact ⟨[mkPoint rec lat lng], rfl, by simp [mkPoint]⟩
  · split
    · split
      · split
        · split
          · exact ⟨[], (List.append_nil _).symm, by simp⟩
          · split
            · next lat lng heq => exact ⟨[mkPoint rec lat lng], rfl, by simp [mkPoint]⟩
            · exact ⟨[], (List.append_nil _).symm, by simp⟩
        · exact ⟨[], (List.append_nil _).symm, by simp⟩
      · exact ⟨[], (List.append_nil _).symm, by simp⟩
    · exact ⟨[], (List.append_nil _).symm, by simp⟩

theorem processRecord_counters (net : String → NetResp) (st : PipeState) (rec : Record) :
    ((processRecord net st rec).geocoded = st.geocoded ∧
      (processRecord net st rec).calls = st.calls) ∨
    (st.geocoded < MAX_GEOCODE ∧ (processRecord net st rec).calls = st.calls + 1 ∧
      ((processRecord net st rec).geocoded = st.geocoded ∨
        (processRecord net st rec).geocoded = st.geocoded + 1)) := by
  unfold processRecord
  split
  · exact Or.inl ⟨rfl, rfl⟩
  · split
    · split
      · next hguard =>
        have hlt : st.geocoded < MAX_GEOCODE := by
          have := (Bool.and_eq_true _ _).mp hguard
          exact of_decide_eq_true this.2
        split
        · split
          · exact Or.inl ⟨rfl, rfl⟩
          · split
            · exact Or.inr ⟨hlt, rfl, Or.inr rfl⟩
            · exact Or.inr ⟨hlt, rfl, Or.inl rfl⟩
        · exact Or.inl ⟨rfl, rfl⟩
      · exact Or.inl ⟨rfl, rfl⟩
    · exact Or.inl ⟨rfl, rfl⟩

theorem foldl_out_sublist (net : String → NetResp) :
    ∀ (recs : List Record) (st : PipeState),
      ((recs.foldl (processRecord net) st).out.map (fun p => p.srcRec)) <+
        (st.out.map (fun p => p.srcRec)) ++ recs := by
  intro recs
  induction recs with
  | nil => intro st; simp
  | cons r rs ih =>
    intro st
    have step := processRecord_out_append net st r
    obtain ⟨t, hout, hsub⟩ := step
    have h1 := ih (processRecord net st r)
    rw [hout] at h1
    simp only [List.foldl_cons]
    refine h1.trans ?_
    rw [List.map_append, List.append_assoc]
    refine List.Sublist.append_left ?_ _
    have : t.map (fun p => p.srcRec) ++ rs <+ [r] ++ rs := List.Sublist.append hsub (List.Sublist.refl rs)
    simpa using this

/-- Claim C8: the pipeline output lists exactly the successfully resolved
records in input order: the source records of the output form a sublist
(order-preserving selection, no placeholder, no reordering, no
duplication) of the input records, and the output is never longer than
the input. -/
theorem pipeline_preserves_order (records : List Record) (cache0 : CacheState)
    (net : String → NetResp) :
    ((runPipeline records cache0 net).out.map (fun p => p.srcRec)) <+ records ∧
    (runPipeline records cache0 net).out.length ≤ records.length := by
  have h := foldl_out_sublist net records ⟨[], 0, cache0, 0⟩
  simp only [List.map_nil, List.nil_append] at h
  refine ⟨h, ?_⟩
  have := h.length_le
  simpa using this

/-- Claim C1 counterexample: a run over 151 records that all need the
address fallback, against a network that always fails, invokes the
geocoder 151 times — beyond the ceiling of 150 — while the budget counter
never moves, because the counter is incremented only on success. -/
theorem pipeline_budget_cex :
    MAX_GEOCODE <
      (runPipeline
        (List.replicate 151 (Fields.ofList [("address", Val.str "x")]))
        (CacheState.ok []) (fun _ => NetResp.netFail)).calls ∧
    (runPipeline
        (List.replicate 151 (Fields.ofList [("address", Val.str "x")]))
        (CacheState.ok []) (fun _ => NetResp.netFail)).geocoded = 0 := by
  decide

/-- Claim C1 (amended): an address-fallback invocation of the Geocoder
consumes one unit of the resolution budget only when the lookup succeeds;
the budget counter therefore never exceeds the ceiling of 150 and never
exceeds the number of invocations, but failed invocations consume no
budget and the total number of invocations can exceed the ceiling. -/
theorem pipeline_budget_bound (records : List Record) (cache0 : CacheState)
    (net : String → NetResp) :
    (runPipeline records cache0 net).geocoded ≤ MAX_GEOCODE ∧
    (runPipeline records cache0 net).geocoded ≤ (runPipeline records cache0 net).calls := by
  have key : ∀ (recs : List Record) (st : PipeState),
      st.geocoded ≤ MAX_GEOCODE → st.geocoded ≤ st.calls →
      (recs.foldl (processRecord net) st).geocoded ≤ MAX_GEOCODE ∧
      (recs.foldl (processRecord net) st).geocoded ≤
        (recs.foldl (processRecord net) st).calls := by
    intro recs
    induction recs with
    | nil => intro st h1 h2; exact ⟨h1, h2⟩
    | cons r rs ih =>
      intro st h1 h2
      have hc := processRecord_counters net st r
      simp only [List.foldl_cons]
      apply ih
      · rcases hc with ⟨hg, _⟩ | ⟨hlt, _, hg | hg⟩ <;> omega
      · rcases hc with ⟨hg, hcl⟩ | ⟨hlt, hcl, hg | hg⟩ <;> omega
  exact key records ⟨[], 0, cache0, 0⟩ (Nat.zero_le _) (Nat.le_refl 0)

/-- Claim C5: a record with a valid embedded coordinate resolves to the
parsed pair without the Geocoder ever being invoked: the loop step only
appends the located point, and the budget counter, the invocation counter
and the cache are untouched. -/
theorem embedded_resolution (net : String → NetResp) (st : PipeState) (rec : Record)
    (lat lng : ℚ) (h : getCoordsFromRecord rec = some (lat, lng)) :
    processRecord net st rec = { st with out := st.out ++ [mkPoint rec lat lng] } := by
  unfold processRecord
  rw [h]

theorem embedded_resolution_witness :
    getCoordsFromRecord (Fields.ofList [("location", Val.obj (Fields.ofList
        [("latitude", Val.str "39.0"), ("longitude", Val.str "-77.1")]))]) =
      some (39, mkRat (-771) 10) ∧
    processRecord (fun _ => NetResp.netFail) ⟨[], 0, CacheState.ok [], 0⟩
        (Fields.ofList [("location", Val.obj (Fields.ofList
          [("latitude", Val.str "39.0"), ("longitude", Val.str "-77.1")]))]) =
      ⟨[mkPoint (Fields.ofList [("location", Val.obj (Fields.ofList
          [("latitude", Val.str "39.0"), ("longitude", Val.str "-77.1")]))])
          39 (mkRat (-771) 10)],
        0, CacheState.ok [], 0⟩ := by
  refine ⟨by decide, ?_⟩
  rw [embedded_resolution (fun _ => NetResp.netFail) ⟨[], 0, CacheState.ok [], 0⟩ _
    39 (mkRat (-771) 10) (by decide)]
  rfl

/-- Claim C10: when embedded extraction fails and the chosen address
source is an object without an address sub-field, the loop step does
nothing at all: the Geocoder is not invoked, no budget is consumed, and
the record contributes no output. -/
theorem object_without_address_skipped (net : String → NetResp) (st : PipeState)
    (rec : Record) (o : Fields)
    (h1 : getCoordsFromRecord rec = none)
    (h2 : bestAddress rec = some (Val.obj o))
    (h3 : Fields.get o "address" = none) :
    processRecord net st rec = st := by
  unfold processRecord
  rw [h1, h2]
  by_cases hg : st.geocoded < MAX_GEOCODE
  · simp [truthy, hg, deriveAddr, isObjectType, getKey, truthyO, h3]
  · simp [truthy, hg]

theorem object_without_address_skipped_witness :
    processRecord (fun _ => NetResp.netFail) ⟨[], 0, CacheState.ok [], 0⟩
        (Fields.ofList [("intake_location", Val.obj (Fields.ofList
          [("foo", Val.str "bar")]))]) =
      ⟨[], 0, CacheState.ok [], 0⟩ :=
  object_without_address_skipped (fun _ => NetResp.netFail) ⟨[], 0, CacheState.ok [], 0⟩
    (Fields.ofList [("intake_location", Val.obj (Fields.ofList [("foo", Val.str "bar")]))])
    (Fields.ofList [("foo", Val.str "bar")])
    (by decide) (by decide) (by decide)

/-- Claim C3 counterexample: the code checks parsed coordinates only for
finiteness, not for range: a record whose location field carries latitude
95 and longitude 200 — both outside the legal ranges — is accepted and
resolved to (95, 200). -/
theorem coords_range_unchecked_cex :
    getCoordsFromRecord (Fields.ofList [("location", Val.obj (Fields.ofList
        [("latitude", Val.str "95"), ("longitude", Val.str "200")]))]) =
      some (95, 200) ∧
    ¬((95 : ℚ) ≤ 90) ∧ ¬((200 : ℚ) ≤ 180) := by
  decide

theorem extractCoord_some (v : Val) (p : ℚ × ℚ) (h : extractCoord v = some p) :
    parseFloatO (getKey v "latitude") = NumV.fin p.1 ∧
    parseFloatO (getKey v "longitude") = NumV.fin p.2 := by
  unfold extractCoord at h
  split at h
  · split at h
    · next lat lng hlat hlon =>
      injection h with h
      subst h
      exact ⟨hlat, hlon⟩
    · exact absurd h (by simp)
  · exact absurd h (by simp)

theorem coordsFrom_some (rec : Record) :
    ∀ (ks : List String) (p : ℚ × ℚ), coordsFrom rec ks = some p →
      ∃ k v, k ∈ ks ∧ getField rec k = some v ∧
        parseFloatO (getKey v "latitude") = NumV.fin p.1 ∧
        parseFloatO (getKey v "longitude") = NumV.fin p.2 := by
  intro ks
  induction ks with
  | nil => intro p h; simp [coordsFrom] at h
  | cons k ks ih =>
    intro p h
    simp only [coordsFrom] at h
    split at h
    · next v hf =>
      split at h
      · next c hc =>
        injection h with h
        subst h
        obtain ⟨h1, h2⟩ := extractCoord_some v c hc
        exact ⟨k, v, List.mem_cons_self k ks, hf, h1, h2⟩
      · obtain ⟨k', v', hk, hv, h1, h2⟩ := ih p h
        exact ⟨k', v', List.mem_cons_of_mem _ hk, hv, h1, h2⟩
    · obtain ⟨k', v', hk, hv, h1, h2⟩ := ih p h
      exact ⟨k', v', List.mem_cons_of_mem _ hk, hv, h1, h2⟩

/-- Claim C3 (amended): every resolved coordinate comes from parses that
yield finite numbers — non-finite parse results are discarded, never
returned and never cached — but no range check is applied, so finite
values outside latitude [-90, 90] or longitude [-180, 180] are accepted
(see the counterexample).  Embedded extraction only returns pairs whose
latitude and longitude both parsed finitely, and the geocoder returns a
pair only from a cache hit or from a finite parse of the first network
result. -/
theorem coords_only_from_finite_parses :
    (∀ (rec : Record) (p : ℚ × ℚ), getCoordsFromRecord rec = some p →
      ∃ k v, k ∈ candidates ∧ getField rec k = some v ∧
        parseFloatO (getKey v "latitude") = NumV.fin p.1 ∧
        parseFloatO (getKey v "longitude") = NumV.fin p.2) ∧
    (∀ (addr : Option String) (cache : CacheState) (net : NetResp) (c : ℚ × ℚ),
      (geocode addr cache net).result = some c →
      (∃ a m, addr = some a ∧ cache = CacheState.ok m ∧ lookupCache m a = some c) ∨
      (∃ latV lonV rs, net = NetResp.results ((latV, lonV) :: rs) ∧
        parseFloatVal latV = NumV.fin c.1 ∧ parseFloatVal lonV = NumV.fin c.2)) :=
  ⟨fun rec p h => coordsFrom_some rec candidates p h, geocode_result_some⟩

theorem coords_only_from_finite_parses_witness :
    (∃ k v, k ∈ candidates ∧
      getField (Fields.ofList [("intake_location", Val.obj (Fields.ofList
        [("latitude", Val.str "39.5"), ("longitude", Val.str "-77.2")]))]) k = some v ∧
      parseFloatO (getKey v "latitude") = NumV.fin ((mkRat 395 10, mkRat (-772) 10)).1 ∧
      parseFloatO (getKey v "longitude") = NumV.fin ((mkRat 395 10, mkRat (-772) 10)).2) ∧
    ((∃ a m, (some "s" : Option String) = some a ∧
        (CacheState.ok [("s", 1, 2)] : CacheState) = CacheState.ok m ∧
        lookupCache m a = some ((1 : ℚ), (2 : ℚ))) ∨
      (∃ latV lonV rs, (NetResp.netFail : NetResp) = NetResp.results ((latV, lonV) :: rs) ∧
        parseFloatVal latV = NumV.fin ((1 : ℚ), (2 : ℚ)).1 ∧
        parseFloatVal lonV = NumV.fin ((1 : ℚ), (2 : ℚ)).2)) :=
  ⟨coords_only_from_finite_parses.1
      (Fields.ofList [("intake_location", Val.obj (Fields.ofList
        [("latitude", Val.str "39.5"), ("longitude", Val.str "-77.2")]))])
      (mkRat 395 10, mkRat (-772) 10) (by decide),
   coords_only_from_finite_parses.2 (some "s") (CacheState.ok [("s", 1, 2)])
      NetResp.netFail (1, 2) (by decide)⟩

end PetMap
